import Mathlib

/-!
Verification of the fenrirqutrub-server backend (src/index.js).

The development shallowly embeds the parts of the server that the claims
are about:

* the slug deriver of `categorySchema.pre("save")` and
  `articleSchema.pre("save")` (JS `toLowerCase` / regex replace pipeline,
  modelled character-wise on `List Char`);
* the engagement counter (like / unlike / view handlers and the per-article
  `likedBy` identity list);
* the category / article / comment stores and the HTTP handlers the claims
  mention, as pure functions from a `Store` to a `Store` and an HTTP status.

JS strings are modelled as Lean `String` (a list of unicode code points);
the JS `toLowerCase` is modelled by its ASCII folding (`jsToLower`), which
is exact on ASCII input.  Everything outside `[a-z0-9]` is later collapsed
to a hyphen by the slug pipeline, so the model is observation-equivalent to
the JS pipeline on all inputs whose case folding stays pointwise.
-/

namespace Fenrir

/-! ### Character classes used by the JS code -/

/-- `[a-z0-9]`, the characters the slug regex `[^a-z0-9]+` keeps. -/
def isLowerAlnum (c : Char) : Bool :=
  (97 ≤ c.toNat && c.toNat ≤ 122) || (48 ≤ c.toNat && c.toNat ≤ 57)

/-- ASCII `A`–`Z`. -/
def isUpperAscii (c : Char) : Bool :=
  65 ≤ c.toNat && c.toNat ≤ 90

/-- An ASCII alphanumeric character (`[A-Za-z0-9]`). -/
def isAsciiAlnum (c : Char) : Bool :=
  isLowerAlnum c || isUpperAscii c

/-- Characters allowed in a slug: `[a-z0-9-]`. -/
def isSlugChar (c : Char) : Bool :=
  isLowerAlnum c || c == '-'

/-- ASCII decimal digit `[0-9]`. -/
def isDigitChar (c : Char) : Bool :=
  48 ≤ c.toNat && c.toNat ≤ 57

/-- Character-wise model of JS `String.prototype.toLowerCase` (ASCII fold). -/
def jsToLower (c : Char) : Char :=
  if isUpperAscii c then Char.ofNat (c.toNat + 32) else c

theorem toNat_ofNat_of_valid {n : Nat} (h : n.isValidChar) :
    (Char.ofNat n).toNat = n := by
  simp only [Char.ofNat, dif_pos h]
  rfl

theorem jsToLower_toNat_of_upper {c : Char} (h : isUpperAscii c = true) :
    (jsToLower c).toNat = c.toNat + 32 := by
  have hb : 65 ≤ c.toNat ∧ c.toNat ≤ 90 := by
    simpa [isUpperAscii, Bool.and_eq_true, decide_eq_true_eq] using h
  have hv : (c.toNat + 32).isValidChar := by
    exact Or.inl (by omega)
  simp [jsToLower, h, toNat_ofNat_of_valid hv]

theorem jsToLower_eq_self_of_not_upper {c : Char} (h : isUpperAscii c = false) :
    jsToLower c = c := by
  simp [jsToLower, h]

theorem isUpperAscii_eq_false_of_lowerAlnum {c : Char}
    (h : isLowerAlnum c = true) : isUpperAscii c = false := by
  cases hb : isUpperAscii c with
  | false => rfl
  | true =>
    exfalso
    simp only [isLowerAlnum, Bool.or_eq_true, Bool.and_eq_true,
      decide_eq_true_eq] at h
    simp only [isUpperAscii, Bool.and_eq_true, decide_eq_true_eq] at hb
    omega

theorem isLowerAlnum_jsToLower_of_asciiAlnum {c : Char}
    (h : isAsciiAlnum c = true) : isLowerAlnum (jsToLower c) = true := by
  have h' : isLowerAlnum c = true ∨ isUpperAscii c = true := by
    simpa [isAsciiAlnum] using h
  rcases h' with hl | hu
  · rw [jsToLower_eq_self_of_not_upper (isUpperAscii_eq_false_of_lowerAlnum hl)]
    exact hl
  · have hb : 65 ≤ c.toNat ∧ c.toNat ≤ 90 := by
      simpa [isUpperAscii, Bool.and_eq_true, decide_eq_true_eq] using hu
    have ht := jsToLower_toNat_of_upper hu
    simp only [isLowerAlnum, Bool.or_eq_true, Bool.and_eq_true,
      decide_eq_true_eq, ht]
    omega

theorem isSlugChar_of_lowerAlnum {c : Char} (h : isLowerAlnum c = true) :
    isSlugChar c = true := by
  simp [isSlugChar, h]

theorem lowerAlnum_ne_hyphen {c : Char} (h : isLowerAlnum c = true) :
    c ≠ '-' := by
  intro hc; subst hc
  simp [isLowerAlnum] at h

theorem hyphen_of_slugChar_not_alnum {c : Char} (hs : isSlugChar c = true)
    (ha : isLowerAlnum c = false) : c = '-' := by
  have h' : isLowerAlnum c = true ∨ (c == '-') = true := by
    simpa [isSlugChar] using hs
  rcases h' with h | h
  · rw [ha] at h; cases h
  · exact eq_of_beq h

theorem jsToLower_eq_self_of_slugChar {c : Char} (h : isSlugChar c = true) :
    jsToLower c = c := by
  apply jsToLower_eq_self_of_not_upper
  have h' : isLowerAlnum c = true ∨ (c == '-') = true := by
    simpa [isSlugChar] using h
  rcases h' with hl | hh
  · exact isUpperAscii_eq_false_of_lowerAlnum hl
  · have : c = '-' := eq_of_beq hh
    subst this; decide

theorem isSlugChar_of_digit {c : Char} (h : isDigitChar c = true) :
    isSlugChar c = true := by
  simp only [isDigitChar, Bool.and_eq_true, decide_eq_true_eq] at h
  simp only [isSlugChar, isLowerAlnum, Bool.or_eq_true, Bool.and_eq_true,
    decide_eq_true_eq]
  omega

theorem digit_ne_hyphen {c : Char} (h : isDigitChar c = true) : c ≠ '-' := by
  intro hc; subst hc
  simp [isDigitChar] at h

/-! ### The slug pipeline

`categorySchema.pre("save")` (src/index.js:172-180) computes

  `name.toLowerCase().replace(/[^a-z0-9]+/g, "-").replace(/(^-|-$)/g, "")`

and `articleSchema.pre("save")` (src/index.js:255-265) computes the same
pipeline on the title and then appends `` `-${timestamp}` ``.

`collapseAux` models `replace(/[^a-z0-9]+/g, "-")`: every maximal run of
characters outside `[a-z0-9]` becomes a single hyphen (the boolean flag
records whether we are inside such a run).  `dropLeadHyphen` and
`stripTrail` model `replace(/(^-|-$)/g, "")`, which removes one leading
and one trailing hyphen (the anchors can each match only once). -/

def collapseAux : Bool → List Char → List Char
  | _, [] => []
  | inRun, c :: cs =>
    if isLowerAlnum c then c :: collapseAux false cs
    else if inRun then collapseAux true cs
    else '-' :: collapseAux true cs

/-- `replace(/[^a-z0-9]+/g, "-")`. -/
def collapseRuns (l : List Char) : List Char :=
  collapseAux false l

/-- Remove one leading hyphen (the `^-` alternative of the regex). -/
def dropLeadHyphen (l : List Char) : List Char :=
  match l with
  | [] => []
  | c :: cs => if c = '-' then cs else c :: cs

/-- Remove one trailing hyphen (the `-$` alternative of the regex). -/
def stripTrail : List Char → List Char
  | [] => []
  | [c] => if c = '-' then [] else [c]
  | c :: c' :: rest => c :: stripTrail (c' :: rest)

/-- `replace(/(^-|-$)/g, "")`. -/
def stripEdges (l : List Char) : List Char :=
  stripTrail (dropLeadHyphen l)

/-- The category slug deriver (and the title part of the article one). -/
def categoryMkSlugL (l : List Char) : List Char :=
  stripEdges (collapseRuns (l.map jsToLower))

/-- Decimal digit character of `n % 10`. -/
def digitChar (n : Nat) : Char :=
  if n % 10 = 0 then '0' else if n % 10 = 1 then '1'
  else if n % 10 = 2 then '2' else if n % 10 = 3 then '3'
  else if n % 10 = 4 then '4' else if n % 10 = 5 then '5'
  else if n % 10 = 6 then '6' else if n % 10 = 7 then '7'
  else if n % 10 = 8 then '8' else '9'

def natDecimalAux : Nat → Nat → List Char
  | 0, _ => []
  | fuel + 1, n =>
    if n < 10 then [digitChar n]
    else natDecimalAux fuel (n / 10) ++ [digitChar n]

/-- Decimal rendering of a natural number, as JS renders `Date.now()`. -/
def natDecimal (n : Nat) : List Char :=
  natDecimalAux (n + 1) n

/-- The article slug deriver: the cleaned title plus `` `-${timestamp}` ``. -/
def articleMkSlugL (l : List Char) (timestamp : Nat) : List Char :=
  categoryMkSlugL l ++ '-' :: natDecimal timestamp

/-- String-level category slug deriver. -/
def categoryMkSlug (s : String) : String :=
  ⟨categoryMkSlugL s.data⟩

/-- String-level article slug deriver. -/
def articleMkSlug (s : String) (timestamp : Nat) : String :=
  ⟨articleMkSlugL s.data timestamp⟩

/-! ### Structural facts about the pipeline -/

/-- No two adjacent hyphens. -/
def NoAdjHyphen (l : List Char) : Prop :=
  l.Chain' (fun a b => ¬(a = '-' ∧ b = '-'))

theorem noAdjHyphen_nil : NoAdjHyphen [] := List.chain'_nil

theorem noAdjHyphen_singleton (c : Char) : NoAdjHyphen [c] :=
  List.chain'_singleton c

theorem NoAdjHyphen.tail {c : Char} {l : List Char}
    (h : NoAdjHyphen (c :: l)) : NoAdjHyphen l :=
  (List.chain'_cons'.1 h).2

theorem NoAdjHyphen.cons {c : Char} {l : List Char}
    (hl : NoAdjHyphen l) (hc : ∀ b, l.head? = some b → ¬(c = '-' ∧ b = '-')) :
    NoAdjHyphen (c :: l) :=
  List.chain'_cons'.2 ⟨fun b hb => hc b hb, hl⟩

theorem NoAdjHyphen.head_pair {c b : Char} {l : List Char}
    (h : NoAdjHyphen (c :: l)) (hb : l.head? = some b) : ¬(c = '-' ∧ b = '-') :=
  (List.chain'_cons'.1 h).1 b hb

theorem collapseAux_all_slug : ∀ (b : Bool) (l : List Char),
    (collapseAux b l).all isSlugChar = true := by
  intro b l
  induction l generalizing b with
  | nil => simp [collapseAux]
  | cons c cs ih =>
    by_cases hc : isLowerAlnum c = true
    · simp [collapseAux, hc, List.all_cons, isSlugChar_of_lowerAlnum hc, ih]
    · rw [Bool.not_eq_true] at hc
      cases b with
      | true => simpa [collapseAux, hc] using ih true
      | false => simp [collapseAux, hc, List.all_cons, isSlugChar, ih]

theorem collapseAux_true_head : ∀ (l : List Char) (c : Char),
    (collapseAux true l).head? = some c → isLowerAlnum c = true := by
  intro l
  induction l with
  | nil => intro c h; simp [collapseAux] at h
  | cons a as ih =>
    intro c h
    by_cases ha : isLowerAlnum a = true
    · simp [collapseAux, ha] at h
      rw [← h]; exact ha
    · rw [Bool.not_eq_true] at ha
      simp only [collapseAux, ha, if_neg, Bool.false_eq_true, if_false,
        if_true] at h
      exact ih c h

theorem collapseAux_noAdj : ∀ (b : Bool) (l : List Char),
    NoAdjHyphen (collapseAux b l) := by
  intro b l
  induction l generalizing b with
  | nil => simpa [collapseAux] using noAdjHyphen_nil
  | cons c cs ih =>
    by_cases hc : isLowerAlnum c = true
    · simp only [collapseAux, hc, if_true]
      exact (ih false).cons (fun _ _ hp => lowerAlnum_ne_hyphen hc hp.1)
    · rw [Bool.not_eq_true] at hc
      cases b with
      | true => simpa [collapseAux, hc] using ih true
      | false =>
        simp only [collapseAux, hc, Bool.false_eq_true, if_false]
        refine (ih true).cons (fun b hb hp => ?_)
        have := collapseAux_true_head cs b hb
        exact lowerAlnum_ne_hyphen this hp.2

theorem collapseAux_any_alnum : ∀ (b : Bool) (l : List Char),
    l.any isLowerAlnum = true → (collapseAux b l).any isLowerAlnum = true := by
  intro b l
  induction l generalizing b with
  | nil => intro h; simp at h
  | cons c cs ih =>
    intro h
    by_cases hc : isLowerAlnum c = true
    · simp [collapseAux, hc]
    · rw [Bool.not_eq_true] at hc
      have hcs : cs.any isLowerAlnum = true := by
        simpa [List.any_cons, hc] using h
      cases b with
      | true => simpa [collapseAux, hc] using ih true hcs
      | false => simp [collapseAux, hc, List.any_cons, ih true hcs]

theorem collapseAux_true_nil_of_no_alnum {l : List Char}
    (h : l.all (fun c => !isLowerAlnum c) = true) :
    collapseAux true l = [] := by
  induction l with
  | nil => rfl
  | cons c cs ih =>
    simp only [List.all_cons, Bool.and_eq_true, Bool.not_eq_true'] at h
    simp [collapseAux, h.1, ih h.2]

theorem collapseAux_false_of_no_alnum {l : List Char}
    (h : l.all (fun c => !isLowerAlnum c) = true) :
    collapseAux false l = if l.isEmpty then [] else ['-'] := by
  cases l with
  | nil => rfl
  | cons c cs =>
    simp only [List.all_cons, Bool.and_eq_true, Bool.not_eq_true'] at h
    simp [collapseAux, h.1, collapseAux_true_nil_of_no_alnum h.2]

theorem dropLeadHyphen_all {p : Char → Bool} {l : List Char}
    (h : l.all p = true) : (dropLeadHyphen l).all p = true := by
  cases l with
  | nil => simp [dropLeadHyphen]
  | cons c cs =>
    simp only [List.all_cons, Bool.and_eq_true] at h
    by_cases hc : c = '-'
    · simp [dropLeadHyphen, hc, h.2]
    · simp [dropLeadHyphen, hc, List.all_cons, h.1, h.2]

theorem dropLeadHyphen_any_alnum {l : List Char}
    (h : l.any isLowerAlnum = true) :
    (dropLeadHyphen l).any isLowerAlnum = true := by
  cases l with
  | nil => simp [dropLeadHyphen] at h
  | cons c cs =>
    by_cases hc : c = '-'
    · subst hc
      have : cs.any isLowerAlnum = true := by
        have hh : isLowerAlnum '-' = false := by decide
        simpa [List.any_cons, hh] using h
      simpa [dropLeadHyphen] using this
    · simpa [dropLeadHyphen, hc] using h

theorem dropLeadHyphen_noAdj {l : List Char} (h : NoAdjHyphen l) :
    NoAdjHyphen (dropLeadHyphen l) := by
  cases l with
  | nil => simpa [dropLeadHyphen] using h
  | cons c cs =>
    by_cases hc : c = '-'
    · simpa [dropLeadHyphen, hc] using h.tail
    · simpa [dropLeadHyphen, hc] using h

theorem dropLeadHyphen_head {l : List Char} (h : NoAdjHyphen l) :
    ∀ c, (dropLeadHyphen l).head? = some c → c ≠ '-' := by
  intro c hc
  cases l with
  | nil => simp [dropLeadHyphen] at hc
  | cons a as =>
    by_cases ha : a = '-'
    · subst ha
      simp only [dropLeadHyphen, if_pos rfl] at hc
      intro hcontra
      exact h.head_pair hc ⟨rfl, hcontra⟩
    · simp [dropLeadHyphen, ha] at hc
      exact hc ▸ ha

theorem dropLeadHyphen_getLast {l : List Char}
    (h : ∀ c, l.getLast? = some c → c ≠ '-') :
    ∀ c, (dropLeadHyphen l).getLast? = some c → c ≠ '-' := by
  intro c hc
  cases l with
  | nil => simp [dropLeadHyphen] at hc
  | cons a as =>
    by_cases ha : a = '-'
    · simp only [dropLeadHyphen, if_pos ha] at hc
      apply h
      cases as with
      | nil => simp at hc
      | cons b bs => rw [List.getLast?_cons_cons]; exact hc
    · simp only [dropLeadHyphen, if_neg ha] at hc
      exact h c hc

theorem stripTrail_all {p : Char → Bool} : ∀ {l : List Char},
    l.all p = true → (stripTrail l).all p = true := by
  intro l
  induction l with
  | nil => intro h; exact h
  | cons c cs ih =>
    intro h
    simp only [List.all_cons, Bool.and_eq_true] at h
    cases cs with
    | nil =>
      by_cases hc : c = '-'
      · simp [stripTrail, hc]
      · simp [stripTrail, hc, h.1]
    | cons c' rest =>
      have := ih h.2
      simp [stripTrail, List.all_cons, h.1, this]

theorem stripTrail_any_alnum : ∀ {l : List Char},
    l.any isLowerAlnum = true → (stripTrail l).any isLowerAlnum = true := by
  intro l
  induction l with
  | nil => intro h; simp at h
  | cons c cs ih =>
    intro h
    cases cs with
    | nil =>
      by_cases hc : c = '-'
      · subst hc
        have : isLowerAlnum '-' = false := by decide
        simp [List.any_cons, this] at h
      · simpa [stripTrail, hc] using h
    | cons c' rest =>
      by_cases hc : isLowerAlnum c = true
      · simp [stripTrail, List.any_cons, hc]
      · rw [Bool.not_eq_true] at hc
        have hcs : (c' :: rest).any isLowerAlnum = true := by
          simpa [List.any_cons, hc] using h
        simp [stripTrail, List.any_cons, ih hcs]

theorem stripTrail_eq_nil : ∀ {l : List Char},
    stripTrail l = [] → l = [] ∨ l = ['-'] := by
  intro l
  cases l with
  | nil => intro _; exact Or.inl rfl
  | cons c cs =>
    cases cs with
    | nil =>
      by_cases hc : c = '-'
      · intro _; exact Or.inr (by rw [hc])
      · intro h; simp [stripTrail, hc] at h
    | cons c' rest =>
      intro h; simp [stripTrail] at h

theorem stripTrail_head : ∀ {l : List Char},
    (stripTrail l).head? = none ∨ (stripTrail l).head? = l.head? := by
  intro l
  cases l with
  | nil => exact Or.inl rfl
  | cons c cs =>
    cases cs with
    | nil =>
      by_cases hc : c = '-'
      · simp [stripTrail, hc]
      · simp [stripTrail, hc]
    | cons c' rest => simp [stripTrail]

theorem stripTrail_getLast : ∀ {l : List Char}, NoAdjHyphen l →
    ∀ c, (stripTrail l).getLast? = some c → c ≠ '-' := by
  intro l
  induction l with
  | nil => intro _ c hc; simp [stripTrail] at hc
  | cons a as ih =>
    intro h c hc
    cases as with
    | nil =>
      by_cases ha : a = '-'
      · simp [stripTrail, ha] at hc
      · simp [stripTrail, ha] at hc
        exact hc ▸ ha
    | cons a' rest =>
      simp only [stripTrail] at hc
      cases hrec : stripTrail (a' :: rest) with
      | nil =>
        rw [hrec] at hc
        simp at hc
        rcases stripTrail_eq_nil hrec with h1 | h1
        · simp at h1
        · injection h1 with ha' hrest
          intro hcontra
          rw [← hc] at hcontra
          exact h.head_pair (by simp) ⟨hcontra, ha'⟩
      | cons d ds =>
        rw [hrec] at hc
        rw [List.getLast?_cons_cons] at hc
        rw [← hrec] at hc
        exact ih h.tail c hc

theorem stripTrail_fixed : ∀ {l : List Char},
    (∀ c, l.getLast? = some c → c ≠ '-') → stripTrail l = l := by
  intro l
  induction l with
  | nil => intro _; rfl
  | cons a as ih =>
    intro h
    cases as with
    | nil =>
      have : a ≠ '-' := h a (by simp)
      simp [stripTrail, this]
    | cons a' rest =>
      have htail : ∀ c, (a' :: rest).getLast? = some c → c ≠ '-' := by
        intro c hc
        apply h
        rw [List.getLast?_cons_cons]; exact hc
      simp [stripTrail, ih htail]

theorem dropLeadHyphen_fixed {l : List Char}
    (h : ∀ c, l.head? = some c → c ≠ '-') : dropLeadHyphen l = l := by
  cases l with
  | nil => rfl
  | cons a as =>
    have : a ≠ '-' := h a rfl
    simp [dropLeadHyphen, this]

theorem stripTrail_noAdj : ∀ {l : List Char}, NoAdjHyphen l →
    NoAdjHyphen (stripTrail l) := by
  intro l
  induction l with
  | nil => intro h; exact h
  | cons c cs ih =>
    intro h
    cases cs with
    | nil =>
      by_cases hc : c = '-'
      · simp only [stripTrail, if_pos hc]; exact noAdjHyphen_nil
      · simp only [stripTrail, if_neg hc]; exact noAdjHyphen_singleton c
    | cons c' rest =>
      simp only [stripTrail]
      refine (ih h.tail).cons (fun b hb hp => ?_)
      rcases stripTrail_head (l := c' :: rest) with hh | hh
      · rw [hh] at hb; cases hb
      · rw [hh] at hb
        simp only [List.head?_cons, Option.some.injEq] at hb
        exact h.head_pair (by simp) (hb ▸ hp)

theorem map_jsToLower_eq_self {l : List Char} (h : l.all isSlugChar = true) :
    l.map jsToLower = l := by
  induction l with
  | nil => rfl
  | cons c cs ih =>
    simp only [List.all_cons, Bool.and_eq_true] at h
    simp [jsToLower_eq_self_of_slugChar h.1, ih h.2]

theorem collapseAux_fixed : ∀ (l : List Char) (b : Bool),
    l.all isSlugChar = true → NoAdjHyphen l →
    (b = true → ∀ c, l.head? = some c → c ≠ '-') →
    collapseAux b l = l := by
  intro l
  induction l with
  | nil => intro b _ _ _; rfl
  | cons c cs ih =>
    intro b hall hadj hb
    simp only [List.all_cons, Bool.and_eq_true] at hall
    by_cases hc : isLowerAlnum c = true
    · simp only [collapseAux, hc, if_true]
      rw [ih false hall.2 hadj.tail (fun hfalse => nomatch hfalse)]
    · rw [Bool.not_eq_true] at hc
      have hceq : c = '-' := hyphen_of_slugChar_not_alnum hall.1 hc
      subst hceq
      cases b with
      | true => exact absurd rfl (hb rfl '-' rfl)
      | false =>
        simp only [collapseAux, hc, Bool.false_eq_true, if_false]
        have hhd : ∀ d, cs.head? = some d → d ≠ '-' := by
          intro d hd hcontra
          exact hadj.head_pair hd ⟨rfl, hcontra⟩
        rw [ih true hall.2 hadj.tail (fun _ => hhd)]

/-! ### Properties of the category slug deriver -/

theorem categoryMkSlugL_all (l : List Char) :
    (categoryMkSlugL l).all isSlugChar = true :=
  stripTrail_all (dropLeadHyphen_all (collapseAux_all_slug false _))

theorem categoryMkSlugL_noAdj (l : List Char) :
    NoAdjHyphen (categoryMkSlugL l) :=
  stripTrail_noAdj (dropLeadHyphen_noAdj (collapseAux_noAdj false _))

theorem categoryMkSlugL_head (l : List Char) :
    ∀ c, (categoryMkSlugL l).head? = some c → c ≠ '-' := by
  intro c hc
  unfold categoryMkSlugL stripEdges at hc
  rcases stripTrail_head
      (l := dropLeadHyphen (collapseRuns (l.map jsToLower))) with hh | hh
  · rw [hh] at hc; cases hc
  · rw [hh] at hc
    exact dropLeadHyphen_head (collapseAux_noAdj false _) c hc

theorem categoryMkSlugL_getLast (l : List Char) :
    ∀ c, (categoryMkSlugL l).getLast? = some c → c ≠ '-' := by
  intro c hc
  unfold categoryMkSlugL stripEdges at hc
  exact stripTrail_getLast (dropLeadHyphen_noAdj (collapseAux_noAdj false _))
    c hc

theorem categoryMkSlugL_map_lower (l : List Char) :
    (categoryMkSlugL l).map jsToLower = categoryMkSlugL l :=
  map_jsToLower_eq_self (categoryMkSlugL_all l)

theorem categoryMkSlugL_idem (l : List Char) :
    categoryMkSlugL (categoryMkSlugL l) = categoryMkSlugL l := by
  have hall := categoryMkSlugL_all l
  have hadj := categoryMkSlugL_noAdj l
  have hhead := categoryMkSlugL_head l
  have hlast := categoryMkSlugL_getLast l
  conv_lhs => rw [categoryMkSlugL]
  rw [categoryMkSlugL_map_lower l]
  rw [show collapseRuns (categoryMkSlugL l) = categoryMkSlugL l from
    collapseAux_fixed _ false hall hadj (fun hfalse => nomatch hfalse)]
  unfold stripEdges
  rw [dropLeadHyphen_fixed hhead, stripTrail_fixed hlast]

theorem isLowerAlnum_eq_false_of_not_ascii {c : Char}
    (h : isAsciiAlnum c = false) : isLowerAlnum (jsToLower c) = false := by
  have hup : isUpperAscii c = false := by
    cases hu : isUpperAscii c
    · rfl
    · exfalso
      simp [isAsciiAlnum, hu] at h
  rw [jsToLower_eq_self_of_not_upper hup]
  cases hl : isLowerAlnum c
  · rfl
  · exfalso
    simp [isAsciiAlnum, hl] at h

theorem categoryMkSlugL_eq_nil_of_no_alnum {l : List Char}
    (h : l.all (fun c => !isAsciiAlnum c) = true) :
    categoryMkSlugL l = [] := by
  have h1 : (l.map jsToLower).all (fun c => !isLowerAlnum c) = true := by
    rw [List.all_map]
    refine List.all_eq_true.2 (fun c hc => ?_)
    have hna := List.all_eq_true.1 h c hc
    simp only [Bool.not_eq_true'] at hna
    simp only [Function.comp_apply, Bool.not_eq_true']
    exact isLowerAlnum_eq_false_of_not_ascii hna
  unfold categoryMkSlugL collapseRuns
  rw [collapseAux_false_of_no_alnum h1]
  cases hA : (l.map jsToLower).isEmpty
  · rw [if_neg (by simp [hA])]
    decide
  · rw [if_pos (by simp [hA])]
    decide

theorem categoryMkSlugL_ne_nil_of_alnum {l : List Char}
    (h : l.any isAsciiAlnum = true) : categoryMkSlugL l ≠ [] := by
  have h1 : (l.map jsToLower).any isLowerAlnum = true := by
    rw [List.any_map]
    rcases List.any_eq_true.1 h with ⟨c, hc, hca⟩
    exact List.any_eq_true.2
      ⟨c, hc, isLowerAlnum_jsToLower_of_asciiAlnum hca⟩
  have h4 : (categoryMkSlugL l).any isLowerAlnum = true :=
    stripTrail_any_alnum (dropLeadHyphen_any_alnum
      (collapseAux_any_alnum false _ h1))
  intro hnil
  rw [hnil] at h4
  cases h4

/-! ### Decimal rendering of the timestamp -/

theorem digitChar_isDigit (n : Nat) : isDigitChar (digitChar n) = true := by
  unfold digitChar
  split_ifs <;> decide

theorem natDecimalAux_all_digit : ∀ (fuel n : Nat),
    (natDecimalAux fuel n).all isDigitChar = true := by
  intro fuel
  induction fuel with
  | zero => intro n; rfl
  | succ f ih =>
    intro n
    by_cases h : n < 10
    · simp [natDecimalAux, h, digitChar_isDigit]
    · simp [natDecimalAux, h, List.all_append, ih, digitChar_isDigit]

theorem natDecimal_all_digit (n : Nat) :
    (natDecimal n).all isDigitChar = true :=
  natDecimalAux_all_digit (n + 1) n

theorem natDecimal_ne_nil (n : Nat) : natDecimal n ≠ [] := by
  unfold natDecimal natDecimalAux
  by_cases h : n < 10 <;> simp [h]

theorem natDecimal_getLast : ∀ n c, (natDecimal n).getLast? = some c →
    isDigitChar c = true := by
  intro n c hc
  have hmem : c ∈ natDecimal n := List.mem_of_getLast?_eq_some hc
  exact List.all_eq_true.1 (natDecimal_all_digit n) c hmem

/-! ### Properties of the article slug deriver -/

theorem articleMkSlugL_all (l : List Char) (ts : Nat) :
    (articleMkSlugL l ts).all isSlugChar = true := by
  unfold articleMkSlugL
  rw [List.all_append, Bool.and_eq_true]
  refine ⟨categoryMkSlugL_all l, ?_⟩
  rw [List.all_cons, Bool.and_eq_true]
  refine ⟨by decide, ?_⟩
  refine List.all_eq_true.2 (fun c hc => ?_)
  exact isSlugChar_of_digit (List.all_eq_true.1 (natDecimal_all_digit ts) c hc)

theorem articleMkSlugL_getLast (l : List Char) (ts : Nat) :
    ∀ c, (articleMkSlugL l ts).getLast? = some c → c ≠ '-' := by
  intro c hc
  unfold articleMkSlugL at hc
  rw [List.getLast?_append] at hc
  have hne := natDecimal_ne_nil ts
  have hsome : ('-' :: natDecimal ts).getLast? = (natDecimal ts).getLast? := by
    rw [show ('-' :: natDecimal ts) = ['-'] ++ natDecimal ts from rfl,
      List.getLast?_append]
    rcases hd : (natDecimal ts).getLast? with _ | d
    · exact absurd (List.getLast?_eq_none_iff.1 hd) hne
    · rfl
  rw [hsome] at hc
  rcases hd : (natDecimal ts).getLast? with _ | d
  · exact absurd (List.getLast?_eq_none_iff.1 hd) hne
  · rw [hd] at hc
    simp only [Option.or_some, Option.some.injEq] at hc
    subst hc
    exact digit_ne_hyphen (natDecimal_getLast ts d hd)

theorem articleMkSlugL_head {l : List Char} (h : l.any isAsciiAlnum = true)
    (ts : Nat) : ∀ c, (articleMkSlugL l ts).head? = some c → c ≠ '-' := by
  intro c hc
  unfold articleMkSlugL at hc
  rw [List.head?_append] at hc
  rcases hh : (categoryMkSlugL l).head? with _ | d
  · exact absurd (List.head?_eq_none_iff.1 hh)
      (categoryMkSlugL_ne_nil_of_alnum h)
  · rw [hh, Option.or_some] at hc
    have hdc : d = c := by injection hc
    exact hdc ▸ categoryMkSlugL_head l d hh

theorem articleMkSlugL_map_lower (l : List Char) (ts : Nat) :
    (articleMkSlugL l ts).map jsToLower = articleMkSlugL l ts :=
  map_jsToLower_eq_self (articleMkSlugL_all l ts)

/-! ### Input sanitisation (src/index.js:427-432) and JS `trim` -/

/-- JS whitespace (ASCII part): space, tab, LF, VT, FF, CR. -/
def isJsWs (c : Char) : Bool :=
  c.toNat = 32 || (9 ≤ c.toNat && c.toNat ≤ 13)

/-- Remove the trailing whitespace run. -/
def trimTrailWs : List Char → List Char
  | [] => []
  | c :: cs =>
    let r := trimTrailWs cs
    if r.isEmpty then (if isJsWs c then [] else [c]) else c :: r

/-- Model of JS `String.prototype.trim` on code points. -/
def jsTrimL (l : List Char) : List Char :=
  trimTrailWs (l.dropWhile isJsWs)

def jsTrim (s : String) : String :=
  ⟨jsTrimL s.data⟩

/-- `replace(/[<>]/g, "")`. -/
def removeAngles (l : List Char) : List Char :=
  l.filter (fun c => !(c == '<' || c == '>'))

/-- `sanitizeInput` (src/index.js:427-432): `input.trim().replace(/[<>]/g, "")`
for string input. -/
def sanitizeInput (s : String) : String :=
  ⟨removeAngles (jsTrimL s.data)⟩

theorem dropWhile_ws_eq_self {l : List Char}
    (h : ∀ c, l.head? = some c → isJsWs c = false) :
    l.dropWhile isJsWs = l := by
  cases l with
  | nil => rfl
  | cons c cs => simp [List.dropWhile_cons, h c rfl]

theorem trimTrailWs_eq_self : ∀ {l : List Char},
    (∀ c, l.getLast? = some c → isJsWs c = false) → trimTrailWs l = l := by
  intro l
  induction l with
  | nil => intro _; rfl
  | cons c cs ih =>
    intro h
    cases cs with
    | nil =>
      have := h c (by simp)
      simp [trimTrailWs, this]
    | cons c' rest =>
      have htail : ∀ d, (c' :: rest).getLast? = some d → isJsWs d = false := by
        intro d hd
        apply h
        rw [List.getLast?_cons_cons]; exact hd
      rw [show trimTrailWs (c :: c' :: rest) =
        (if (trimTrailWs (c' :: rest)).isEmpty then
          (if isJsWs c then [] else [c])
        else c :: trimTrailWs (c' :: rest)) from rfl]
      rw [ih htail]
      simp

theorem jsTrimL_eq_self {l : List Char}
    (hh : ∀ c, l.head? = some c → isJsWs c = false)
    (hl : ∀ c, l.getLast? = some c → isJsWs c = false) :
    jsTrimL l = l := by
  unfold jsTrimL
  rw [dropWhile_ws_eq_self hh, trimTrailWs_eq_self hl]

theorem sanitizeInput_eq_self {s : String}
    (hh : ∀ c, s.data.head? = some c → isJsWs c = false)
    (hl : ∀ c, s.data.getLast? = some c → isJsWs c = false)
    (ha : ∀ c ∈ s.data, c ≠ '<' ∧ c ≠ '>') :
    sanitizeInput s = s := by
  unfold sanitizeInput removeAngles
  rw [jsTrimL_eq_self hh hl]
  rw [List.filter_eq_self.2 (fun c hc => by
    rcases ha c hc with ⟨h1, h2⟩
    simp [h1, h2])]

/-! ### Data model

Documents of the three Mongo collections the claims touch, with the fields
the claims are about.  Counters are `Int` because Mongo `$inc` has no lower
bound (the schema-level `min: 0` is a validator that the `$inc` update
paths never run). -/

structure CategoryDoc where
  categoryName : String
  slug : String
  articleCount : Int
deriving Repr, DecidableEq

structure ArticleDoc where
  category : String
  title : String
  description : String
  code : String
  slug : String
  views : Int
  likes : Int
  likedBy : List String
  createdAt : Nat
deriving Repr, DecidableEq

structure CommentDoc where
  articleId : Nat
  user : String
  text : String
  likes : Int
deriving Repr, DecidableEq

/-- The document database state.  Document ids are modelled as `Nat`. -/
structure Store where
  cats : List (Nat × CategoryDoc)
  arts : List (Nat × ArticleDoc)
  comments : List (Nat × CommentDoc)
deriving Repr, DecidableEq

/-- `findById`: the store holds at most one document per id. -/
def findDoc {α : Type} : List (Nat × α) → Nat → Option α
  | [], _ => none
  | (i, d) :: rest, j => if i = j then some d else findDoc rest j

/-- Overwrite the document stored under an id (used by `save` and
`findByIdAndUpdate`). -/
def setDoc {α : Type} : List (Nat × α) → Nat → α → List (Nat × α)
  | [], _, _ => []
  | (i, d) :: rest, j, d' =>
    if i = j then (i, d') :: rest else (i, d) :: setDoc rest j d'

/-- `findByIdAndDelete`. -/
def removeDoc {α : Type} : List (Nat × α) → Nat → List (Nat × α)
  | [], _ => []
  | (i, d) :: rest, j => if i = j then rest else (i, d) :: removeDoc rest j

/-- `Category.findOneAndUpdate({ categoryName }, { $inc: { articleCount: δ } })`:
bump the counter of the first category whose name matches exactly. -/
def incCountByName : List (Nat × CategoryDoc) → String → Int →
    List (Nat × CategoryDoc)
  | [], _, _ => []
  | (i, c) :: rest, name, d =>
    if c.categoryName = name then
      (i, { c with articleCount := c.articleCount + d }) :: rest
    else
      (i, c) :: incCountByName rest name d

/-! ### Engagement identities (src/index.js:952-955, 999-1000, 1044-1045) -/

/-- Identity used by `POST /api/articles/:id/like`:
`userId ? sanitizeInput(userId) : guest_${req.ip}_${Date.now()}`. -/
def likeIdentity (userId : Option String) (ip : String) (now : Nat) : String :=
  match userId with
  | some u => if u = "" then "guest_" ++ ip ++ "_" ++ Nat.repr now
              else sanitizeInput u
  | none => "guest_" ++ ip ++ "_" ++ Nat.repr now

/-- Identity used by `POST /api/articles/:id/unlike` and
`GET /api/articles/:id/like-status`: `userId ? sanitizeInput(userId) :
guest_${req.ip}`. -/
def unlikeIdentity (userId : Option String) (ip : String) : String :=
  match userId with
  | some u => if u = "" then "guest_" ++ ip else sanitizeInput u
  | none => "guest_" ++ ip

/-! ### The like / unlike document updates (src/index.js:966-975, 1011-1020) -/

/-- The mutation performed by the like route on a found article:
`none` is the early-return `400 "You have already liked this article"`. -/
def likeApply (a : ArticleDoc) (ident : String) : Option ArticleDoc :=
  if a.likedBy.contains ident then none
  else some { a with likes := a.likes + 1, likedBy := a.likedBy ++ [ident] }

/-- The mutation performed by the unlike route on a found article:
`none` is the early-return `400 "You haven't liked this article"`. -/
def unlikeApply (a : ArticleDoc) (ident : String) : Option ArticleDoc :=
  if a.likedBy.contains ident then
    some { a with likes := max 0 (a.likes - 1),
                  likedBy := a.likedBy.filter (fun s => s != ident) }
  else none

/-! ### HTTP handlers (store transition plus status code) -/

/-- `POST /api/articles/:id/like` (src/index.js:942-986). -/
def postLike (st : Store) (artId : Nat) (userId : Option String)
    (ip : String) (now : Nat) : Store × Nat :=
  let ident := likeIdentity userId ip now
  match findDoc st.arts artId with
  | none => (st, 404)
  | some a =>
    match likeApply a ident with
    | none => (st, 400)
    | some a' => ({ st with arts := setDoc st.arts artId a' }, 200)

/-- `POST /api/articles/:id/unlike` (src/index.js:989-1031). -/
def postUnlike (st : Store) (artId : Nat) (userId : Option String)
    (ip : String) : Store × Nat :=
  let ident := unlikeIdentity userId ip
  match findDoc st.arts artId with
  | none => (st, 404)
  | some a =>
    match unlikeApply a ident with
    | none => (st, 400)
    | some a' => ({ st with arts := setDoc st.arts artId a' }, 200)

/-- `POST /api/articles/:id/view` (src/index.js:1106-1138):
`findByIdAndUpdate(id, { $inc: { views: 1 } })`. -/
def postView (st : Store) (artId : Nat) : Store × Nat :=
  match findDoc st.arts artId with
  | none => (st, 404)
  | some a =>
    ({ st with arts := setDoc st.arts artId ({ a with views := a.views + 1 }) },
     200)

/-- `n` successive calls of `POST /api/articles/:id/view`. -/
def viewCalls (artId : Nat) : Nat → Store → Store
  | 0, st => st
  | n + 1, st => viewCalls artId n (postView st artId).1

/-- `POST /api/comments/:id/like` (src/index.js:1275-1307):
`findByIdAndUpdate(id, { $inc: { likes: 1 } })`, no identity involved. -/
def postCommentLike (st : Store) (commentId : Nat) : Store × Nat :=
  match findDoc st.comments commentId with
  | none => (st, 404)
  | some c =>
    ({ st with
        comments := setDoc st.comments commentId
          ({ c with likes := c.likes + 1 }) },
     200)

/-- `n` successive calls of `POST /api/comments/:id/like`. -/
def commentLikeCalls (commentId : Nat) : Nat → Store → Store
  | 0, st => st
  | n + 1, st => commentLikeCalls commentId n (postCommentLike st commentId).1

/-- Case-insensitive whole-string match, the model of
`findOne({ categoryName: { $regex: new RegExp(`^name$`, "i") } })` for a
name without regex metacharacters. -/
def ciEq (s t : String) : Bool :=
  s.data.map jsToLower == t.data.map jsToLower

/-- The `categoryName` schema validators (required, minlength 3,
maxlength 50), applied to the value after the `trim: true` setter. -/
def categoryNameValid (s : String) : Bool :=
  3 ≤ s.length && s.length ≤ 50

/-- `POST /api/categories` (src/index.js:441-474).  `freshId` stands for
the ObjectId Mongo would mint. -/
def createCategory (st : Store) (freshId : Nat) (body : Option String) :
    Store × Nat :=
  match body with
  | none => (st, 400)
  | some raw =>
    if jsTrim raw = "" then (st, 400)
    else
      let name := sanitizeInput raw
      if st.cats.any (fun p => ciEq p.2.categoryName name) then (st, 409)
      else
        let stored := jsTrim name
        if categoryNameValid stored then
          ({ st with cats := st.cats ++
              [(freshId, { categoryName := stored,
                           slug := categoryMkSlug stored,
                           articleCount := 0 })] }, 201)
        else (st, 400)

/-- Request body of `POST /api/articles` (text fields and whether the two
image files are attached; the Cloudinary upload is external). -/
structure ArticleInput where
  category : Option String
  title : Option String
  description : Option String
  code : Option String
  hasAvatar : Bool
  hasImg : Bool
deriving Repr, DecidableEq

/-- JS falsiness of an optional string field. -/
def strFalsy (o : Option String) : Bool :=
  match o with
  | none => true
  | some s => s = ""

/-- `POST /api/articles` (src/index.js:731-791).  `ts` is `Date.now()` at
slug time; it also stands in for the creation instant. -/
def createArticle (st : Store) (freshId : Nat) (ts : Nat)
    (inp : ArticleInput) : Store × Nat :=
  if strFalsy inp.category || strFalsy inp.title ||
      strFalsy inp.description || strFalsy inp.code then (st, 400)
  else if !(inp.hasAvatar && inp.hasImg) then (st, 400)
  else
    let scat := sanitizeInput (inp.category.getD "")
    let stitle := sanitizeInput (inp.title.getD "")
    let sdesc := sanitizeInput (inp.description.getD "")
    let scode := inp.code.getD ""
    let vcat := jsTrim scat
    let vtitle := jsTrim stitle
    let vdesc := jsTrim sdesc
    if vcat = "" || !(5 ≤ vtitle.length && vtitle.length ≤ 200) ||
        !(20 ≤ vdesc.length && vdesc.length ≤ 1000) || scode = "" then
      (st, 400)
    else
      let doc : ArticleDoc :=
        { category := vcat, title := vtitle, description := vdesc,
          code := scode, slug := articleMkSlug vtitle ts,
          views := 0, likes := 0, likedBy := [], createdAt := ts }
      ({ st with arts := st.arts ++ [(freshId, doc)],
                 cats := incCountByName st.cats scat 1 }, 201)

/-- `DELETE /api/articles/:id` (src/index.js:898-933): remove the article
and `$inc` its category's `articleCount` by `-1`. -/
def deleteArticle (st : Store) (artId : Nat) : Store × Nat :=
  match findDoc st.arts artId with
  | none => (st, 404)
  | some a =>
    ({ st with arts := removeDoc st.arts artId,
               cats := incCountByName st.cats a.category (-1) }, 200)

/-! ### The paginated article list, `GET /api/articles` (src/index.js:682-728) -/

/-- Does `pat` match at the start of `hay`? -/
def headMatch : List Char → List Char → Bool
  | _, [] => true
  | [], _ :: _ => false
  | c :: cs, p :: ps => c == p && headMatch cs ps

/-- Does `pat` occur contiguously in `hay`?  Models `$regex` substring
search for a pattern without metacharacters. -/
def hasSub : List Char → List Char → Bool
  | [], pat => pat.isEmpty
  | c :: t, pat => headMatch (c :: t) pat || hasSub t pat

/-- Case-insensitive substring match (`$regex` with `$options: "i"`). -/
def hasSubCI (s pat : String) : Bool :=
  hasSub (s.data.map jsToLower) (pat.data.map jsToLower)

/-- Total lexicographic order on code points, the model of the store's
string ordering for the `title` sort. -/
def lexLe : List Char → List Char → Bool
  | [], _ => true
  | _ :: _, [] => false
  | a :: as, b :: bs =>
    if a.toNat < b.toNat then true
    else if b.toNat < a.toNat then false
    else lexLe as bs

def strLe (s t : String) : Bool :=
  lexLe s.data t.data

theorem lexLe_total : ∀ x y : List Char, (lexLe x y || lexLe y x) = true := by
  intro x
  induction x with
  | nil => intro y; simp [lexLe]
  | cons a as ih =>
    intro y
    cases y with
    | nil => simp [lexLe]
    | cons b bs =>
      by_cases h1 : a.toNat < b.toNat
      · simp [lexLe, h1]
      · by_cases h2 : b.toNat < a.toNat
        · simp [lexLe, h1, h2]
        · simpa [lexLe, h1, h2] using ih bs

theorem lexLe_trans : ∀ x y z : List Char,
    lexLe x y = true → lexLe y z = true → lexLe x z = true := by
  intro x
  induction x with
  | nil => intro y z _ _; rfl
  | cons a as ih =>
    intro y z hxy hyz
    cases y with
    | nil => simp [lexLe] at hxy
    | cons b bs =>
      cases z with
      | nil => simp [lexLe] at hyz
      | cons c cs =>
        by_cases hab : a.toNat < b.toNat
        · by_cases hbc : b.toNat < c.toNat
          · simp [lexLe]; omega
          · by_cases hcb : c.toNat < b.toNat
            · simp [lexLe, hab, hbc, hcb] at hyz
            · have : b.toNat = c.toNat := by omega
              simp [lexLe]; omega
        · by_cases hba : b.toNat < a.toNat
          · simp [lexLe, hab, hba] at hxy
          · have hab' : a.toNat = b.toNat := by omega
            simp only [lexLe, hab, hba, if_false] at hxy
            by_cases hbc : b.toNat < c.toNat
            · simp [lexLe]; omega
            · by_cases hcb : c.toNat < b.toNat
              · simp [lexLe, hbc, hcb] at hyz
              · simp only [lexLe, hbc, hcb, if_false] at hyz
                simp only [lexLe, if_neg (by omega : ¬a.toNat < c.toNat),
                  if_neg (by omega : ¬c.toNat < a.toNat)]
                exact ih bs cs hxy hyz

/-- The descending comparator used by `sort({ [sortField]: -1 })`:
`articleLe f a b` says `a` may come before `b`. -/
def articleLe (field : String) (a b : ArticleDoc) : Bool :=
  if field = "views" then decide (b.views ≤ a.views)
  else if field = "likes" then decide (b.likes ≤ a.likes)
  else if field = "title" then strLe b.title a.title
  else decide (b.createdAt ≤ a.createdAt)

theorem articleLe_trans (f : String) : ∀ a b c : ArticleDoc,
    articleLe f a b = true → articleLe f b c = true →
    articleLe f a c = true := by
  intro a b c hab hbc
  unfold articleLe at *
  split_ifs at * with h1 h2 h3
  · simp only [decide_eq_true_eq] at *; omega
  · simp only [decide_eq_true_eq] at *; omega
  · exact lexLe_trans _ _ _ hbc hab
  · simp only [decide_eq_true_eq] at *; omega

theorem articleLe_total (f : String) : ∀ a b : ArticleDoc,
    (articleLe f a b || articleLe f b a) = true := by
  intro a b
  unfold articleLe
  split_ifs with h1 h2 h3
  · simp only [Bool.or_eq_true, decide_eq_true_eq]; omega
  · simp only [Bool.or_eq_true, decide_eq_true_eq]; omega
  · exact lexLe_total _ _
  · simp only [Bool.or_eq_true, decide_eq_true_eq]; omega

/-- `validSortFields.includes(sortBy) ? sortBy : "createdAt"`. -/
def chosenSortField (sortBy : String) : String :=
  if ["createdAt", "views", "likes", "title"].contains sortBy then sortBy
  else "createdAt"

/-- Query-string parameters of `GET /api/articles` (numeric parameters
already coerced, as `+page` / `+limit` do). -/
structure ListQuery where
  category : Option String
  search : Option String
  page : Nat
  limit : Nat
  sortBy : String
deriving Repr, DecidableEq

/-- The Mongo filter built from `category` and `search` (empty strings are
falsy in JS, so they impose no filter). -/
def articleMatches (q : ListQuery) (a : ArticleDoc) : Bool :=
  (match q.category with
   | none => true
   | some c => if c = "" then true else a.category == sanitizeInput c) &&
  (match q.search with
   | none => true
   | some s =>
     if s = "" then true
     else hasSubCI a.title (sanitizeInput s) ||
       hasSubCI a.description (sanitizeInput s))

def filteredArticles (st : Store) (q : ListQuery) : List ArticleDoc :=
  (st.arts.map Prod.snd).filter (articleMatches q)

def sortedArticles (st : Store) (q : ListQuery) : List ArticleDoc :=
  (filteredArticles st q).mergeSort (articleLe (chosenSortField q.sortBy))

/-- `Math.ceil(total / limitValue)` for a positive divisor. -/
def ceilDiv (a b : Nat) : Nat :=
  (a + b - 1) / b

structure ListResult where
  data : List ArticleDoc
  total : Nat
  page : Nat
  totalPages : Nat
deriving Repr, DecidableEq

/-- `GET /api/articles`: `skip = (Math.max(1, +page) - 1) *
Math.min(+limit, 50)`, `limitValue = Math.min(+limit, 50)`, descending
sort, and `totalPages = Math.ceil(total / limitValue)`. -/
def getArticles (st : Store) (q : ListQuery) : ListResult :=
  let limitValue := min q.limit 50
  let skip := (max 1 q.page - 1) * limitValue
  { data := ((sortedArticles st q).drop skip).take limitValue,
    total := (filteredArticles st q).length,
    page := q.page,
    totalPages := ceilDiv (filteredArticles st q).length limitValue }

/-! ### Store lemmas -/

theorem findDoc_setDoc_self {α : Type} : ∀ (l : List (Nat × α)) (i : Nat)
    (a d : α), findDoc l i = some a → findDoc (setDoc l i d) i = some d := by
  intro l
  induction l with
  | nil => intro i a d h; simp [findDoc] at h
  | cons p rest ih =>
    intro i a d h
    obtain ⟨j, b⟩ := p
    by_cases hj : j = i
    · simp [findDoc, setDoc, hj]
    · simp only [findDoc, setDoc, hj, if_false] at h ⊢
      exact ih i a d h

theorem contains_eq_true_iff {l : List String} {x : String} :
    l.contains x = true ↔ x ∈ l := by
  simp [List.contains, List.elem_iff]

theorem length_filter_ne_of_nodup : ∀ {l : List String} {x : String},
    l.Nodup → x ∈ l → (l.filter (fun s => s != x)).length = l.length - 1 := by
  intro l
  induction l with
  | nil => intro x _ h; cases h
  | cons a t ih =>
    intro x hnd hmem
    have hnd' := List.nodup_cons.1 hnd
    by_cases hax : a = x
    · subst hax
      have hft : t.filter (fun s => s != a) = t :=
        List.filter_eq_self.2
          (fun s hs => bne_iff_ne.2 (fun he => hnd'.1 (he ▸ hs)))

      simp [List.filter_cons, hft]
    · have hxt : x ∈ t := by
        rcases List.mem_cons.1 hmem with h | h
        · exact absurd h.symm hax
        · exact h
      have hlen := ih hnd'.2 hxt
      have hpos : 0 < t.length := List.length_pos.2 (List.ne_nil_of_mem hxt)
      simp only [List.filter_cons]
      rw [if_pos (bne_iff_ne.2 hax)]
      simp only [List.length_cons, hlen]
      omega

/-! ### Sequences of like / unlike requests (the engagement counter) -/

inductive EngageOp where
  | like (ident : String)
  | unlike (ident : String)
deriving Repr, DecidableEq

/-- Net effect of one like/unlike request on the article document: a
failed request (`Conflict` response) leaves the document unchanged. -/
def applyEngage (a : ArticleDoc) : EngageOp → ArticleDoc
  | .like i => (likeApply a i).getD a
  | .unlike i => (unlikeApply a i).getD a

/-- Net effect of a sequence of like/unlike requests. -/
def runEngage (a : ArticleDoc) (ops : List EngageOp) : ArticleDoc :=
  ops.foldl applyEngage a

/-- The engagement invariant: `likedBy` holds no duplicates and `likes`
counts it. -/
def EngageInv (a : ArticleDoc) : Prop :=
  a.likedBy.Nodup ∧ a.likes = (a.likedBy.length : Int)

theorem engage_step {a : ArticleDoc} (h : EngageInv a) (op : EngageOp) :
    EngageInv (applyEngage a op) := by
  obtain ⟨hnd, hlen⟩ := h
  cases op with
  | like i =>
    by_cases hc : a.likedBy.contains i = true
    · simp only [applyEngage, likeApply, hc, if_true, Option.getD_none]
      exact ⟨hnd, hlen⟩
    · have hni : i ∉ a.likedBy := fun hm => hc (contains_eq_true_iff.2 hm)
      simp only [applyEngage, likeApply, hc, Bool.false_eq_true, if_false,
        Option.getD_some]
      constructor
      · rw [List.nodup_append]
        refine ⟨hnd, List.nodup_singleton i, fun x hx hx' => hni ?_⟩
        have hxi : x = i := by simpa using hx'
        exact hxi ▸ hx
      · simp only [List.length_append, List.length_cons, List.length_nil]
        rw [hlen]
        push_cast
        ring
  | unlike i =>
    by_cases hc : a.likedBy.contains i = true
    · have hmi : i ∈ a.likedBy := contains_eq_true_iff.1 hc
      have hpos : 0 < a.likedBy.length :=
        List.length_pos.2 (List.ne_nil_of_mem hmi)
      have hflen := length_filter_ne_of_nodup hnd hmi
      simp only [applyEngage, unlikeApply, hc, if_true, Option.getD_some]
      constructor
      · exact hnd.filter _
      · rw [hflen, hlen]
        have h1 : (1 : Int) ≤ (a.likedBy.length : Int) := by
          exact_mod_cast hpos
        rw [max_eq_right (by omega)]
        push_cast [hpos]
        ring
    · simp only [applyEngage, unlikeApply, hc, Bool.false_eq_true, if_false,
        Option.getD_none]
      exact ⟨hnd, hlen⟩

theorem engage_run_inv {a : ArticleDoc} (h : EngageInv a)
    (ops : List EngageOp) : EngageInv (runEngage a ops) := by
  induction ops generalizing a with
  | nil => exact h
  | cons op ops ih => exact ih (engage_step h op)

/-! ### Counting repeated view / comment-like calls -/

theorem viewCalls_adds : ∀ (n : Nat) (st : Store) (artId : Nat)
    (a : ArticleDoc), findDoc st.arts artId = some a →
    findDoc (viewCalls artId n st).arts artId =
      some ({ a with views := a.views + (n : Int) }) := by
  intro n
  induction n with
  | zero =>
    intro st artId a h
    simpa using h
  | succ n ih =>
    intro st artId a h
    have hstep : findDoc ((postView st artId).1).arts artId =
        some ({ a with views := a.views + 1 }) := by
      simp only [postView, h]
      exact findDoc_setDoc_self _ _ _ _ h
    have h2 := ih _ artId _ hstep
    rw [show viewCalls artId (n + 1) st =
      viewCalls artId n (postView st artId).1 from rfl]
    rw [h2]
    have harith : a.views + 1 + (n : Int) = a.views + ((n + 1 : Nat) : Int) := by
      push_cast; ring
    congr 1
    simp only [harith]

theorem commentLikeCalls_adds : ∀ (n : Nat) (st : Store) (commentId : Nat)
    (c : CommentDoc), findDoc st.comments commentId = some c →
    findDoc (commentLikeCalls commentId n st).comments commentId =
      some ({ c with likes := c.likes + (n : Int) }) := by
  intro n
  induction n with
  | zero =>
    intro st commentId c h
    simpa using h
  | succ n ih =>
    intro st commentId c h
    have hstep : findDoc ((postCommentLike st commentId).1).comments
        commentId = some ({ c with likes := c.likes + 1 }) := by
      simp only [postCommentLike, h]
      exact findDoc_setDoc_self _ _ _ _ h
    have h2 := ih _ commentId _ hstep
    rw [show commentLikeCalls commentId (n + 1) st =
      commentLikeCalls commentId n (postCommentLike st commentId).1 from rfl]
    rw [h2]
    have harith : c.likes + 1 + (n : Int) = c.likes + ((n + 1 : Nat) : Int) := by
      push_cast; ring
    congr 1
    simp only [harith]

/-! ### Character preservation through trim / sanitize -/

theorem dropWhile_all {p q : Char → Bool} {l : List Char}
    (h : l.all p = true) : (l.dropWhile q).all p = true := by
  refine List.all_eq_true.2 (fun c hc => ?_)
  exact List.all_eq_true.1 h c ((List.dropWhile_sublist q).subset hc)

theorem trimTrailWs_all {p : Char → Bool} : ∀ {l : List Char},
    l.all p = true → (trimTrailWs l).all p = true := by
  intro l
  induction l with
  | nil => intro h; exact h
  | cons c cs ih =>
    intro h
    simp only [List.all_cons, Bool.and_eq_true] at h
    rw [show trimTrailWs (c :: cs) =
      (if (trimTrailWs cs).isEmpty then (if isJsWs c then [] else [c])
       else c :: trimTrailWs cs) from rfl]
    by_cases he : (trimTrailWs cs).isEmpty
    · rw [if_pos he]
      by_cases hw : isJsWs c
      · simp [hw]
      · simp [hw, h.1]
    · rw [if_neg he]
      simp [List.all_cons, h.1, ih h.2]

theorem jsTrimL_all {p : Char → Bool} {l : List Char}
    (h : l.all p = true) : (jsTrimL l).all p = true :=
  trimTrailWs_all (dropWhile_all h)

theorem removeAngles_all {p : Char → Bool} {l : List Char}
    (h : l.all p = true) : (removeAngles l).all p = true := by
  refine List.all_eq_true.2 (fun c hc => ?_)
  exact List.all_eq_true.1 h c (List.mem_of_mem_filter hc)

/-! ### Boolean forms of the sanitize fixed-point conditions -/

/-- No JS whitespace at either end of the string. -/
def noEdgeWs (s : String) : Bool :=
  (match s.data.head? with | none => true | some c => !isJsWs c) &&
  (match s.data.getLast? with | none => true | some c => !isJsWs c)

/-- No `<` or `>` anywhere in the string. -/
def noAngles (s : String) : Bool :=
  s.data.all (fun c => !(c == '<' || c == '>'))

theorem sanitizeInput_eq_self_of_clean {s : String}
    (hws : noEdgeWs s = true) (hang : noAngles s = true) :
    sanitizeInput s = s := by
  have hw : (match s.data.head? with
        | none => true | some c => !isJsWs c) = true ∧
      (match s.data.getLast? with
        | none => true | some c => !isJsWs c) = true := by
    simpa [noEdgeWs, Bool.and_eq_true] using hws
  simp only [noAngles] at hang
  refine sanitizeInput_eq_self ?_ ?_ ?_
  · intro c hc
    have h1 := hw.1
    rw [hc] at h1
    simpa using h1
  · intro c hc
    have h1 := hw.2
    rw [hc] at h1
    simpa using h1
  · intro c hc
    have h1 := List.all_eq_true.1 hang c hc
    constructor
    · intro h; subst h; simp at h1
    · intro h; subst h; simp at h1

/-! ## The claims -/

/-- C1: for every article, after any sequence of like/unlike requests
starting from a newly created article (`likes = 0`, `likedBy = []`) — in
particular after any sequence of successful ones, since a failed request
leaves the document untouched — the `likes` counter equals the number of
entries of `likedBy`, and `likes ≥ 0`. -/
theorem C1_likes_eq_likedBy_length (ops : List EngageOp) (a : ArticleDoc)
    (h0 : a.likes = 0) (h1 : a.likedBy = []) :
    (runEngage a ops).likes = ((runEngage a ops).likedBy.length : Int) ∧
    0 ≤ (runEngage a ops).likes := by
  have hinv : EngageInv (runEngage a ops) :=
    engage_run_inv ⟨by simp [h1], by simp [h0, h1]⟩ ops
  refine ⟨hinv.2, ?_⟩
  rw [hinv.2]
  exact Int.natCast_nonneg _

def c1Article : ArticleDoc :=
  { category := "Tech", title := "Hello World", description := "d",
    code := "x", slug := "hello-world-1", views := 0, likes := 0,
    likedBy := [], createdAt := 0 }

theorem C1_likes_eq_likedBy_length_witness :
    (runEngage c1Article [EngageOp.like "u", EngageOp.like "u",
        EngageOp.unlike "u", EngageOp.like "v"]).likes =
      ((runEngage c1Article [EngageOp.like "u", EngageOp.like "u",
        EngageOp.unlike "u", EngageOp.like "v"]).likedBy.length : Int) ∧
    0 ≤ (runEngage c1Article [EngageOp.like "u", EngageOp.like "u",
        EngageOp.unlike "u", EngageOp.like "v"]).likes :=
  C1_likes_eq_likedBy_length _ c1Article rfl rfl

/-- C2: when the derived identity is already in `likedBy`, the like route
answers with the `Conflict` response (HTTP 400, "You have already liked
this article"; the spec's taxonomy maps `Conflict` to 409/400) and the
store is unchanged; when it is absent, the unlike route answers with the
`Conflict` response (HTTP 400) and the store is unchanged. -/
theorem C2_duplicate_like_absent_unlike_conflict (st : Store) (artId : Nat)
    (likeUserId unlikeUserId : Option String) (ip : String) (now : Nat)
    (a : ArticleDoc) (hfind : findDoc st.arts artId = some a) :
    (a.likedBy.contains (likeIdentity likeUserId ip now) = true →
      postLike st artId likeUserId ip now = (st, 400)) ∧
    (a.likedBy.contains (unlikeIdentity unlikeUserId ip) = false →
      postUnlike st artId unlikeUserId ip = (st, 400)) := by
  constructor
  · intro hc
    have hm : likeIdentity likeUserId ip now ∈ a.likedBy :=
      contains_eq_true_iff.1 hc
    simp [postLike, hfind, likeApply, hm]
  · intro hc
    have hm : unlikeIdentity unlikeUserId ip ∉ a.likedBy := by
      intro hmem
      rw [contains_eq_true_iff.2 hmem] at hc
      cases hc
    simp [postUnlike, hfind, unlikeApply, hm]

def c2Doc : ArticleDoc :=
  { category := "Tech", title := "Hello World", description := "d",
    code := "x", slug := "s", views := 0, likes := 1, likedBy := ["u"],
    createdAt := 0 }

def c2Store : Store :=
  { cats := [], comments := [], arts := [(1, c2Doc)] }

theorem C2_duplicate_like_absent_unlike_conflict_witness :
    postLike c2Store 1 (some "u") "9.9.9.9" 7 = (c2Store, 400) ∧
    postUnlike c2Store 1 (some "v") "9.9.9.9" = (c2Store, 400) := by
  have h := C2_duplicate_like_absent_unlike_conflict c2Store 1 (some "u")
    (some "v") "9.9.9.9" 7 c2Doc (by decide)
  exact ⟨h.1 (by decide), h.2 (by decide)⟩

/-- C5: each `POST /api/articles/:id/view` on an existing article answers
200 and `$inc`s `views` by exactly 1, so `n` calls add exactly `n`, with
no bound and no deduplication; an unresolved id yields 404 and leaves the
store unchanged. -/
theorem C5_view_counting (st : Store) (artId : Nat) :
    (∀ a, findDoc st.arts artId = some a →
      (postView st artId).2 = 200 ∧
      ∀ n, findDoc (viewCalls artId n st).arts artId =
        some ({ a with views := a.views + (n : Int) })) ∧
    (findDoc st.arts artId = none → postView st artId = (st, 404)) := by
  constructor
  · intro a hfind
    refine ⟨by simp [postView, hfind], fun n => viewCalls_adds n st artId a hfind⟩
  · intro hnone
    simp [postView, hnone]

def c5Doc : ArticleDoc :=
  { category := "Tech", title := "Hello World", description := "d",
    code := "x", slug := "s", views := 7, likes := 0, likedBy := [],
    createdAt := 0 }

def c5Store : Store :=
  { cats := [], comments := [], arts := [(1, c5Doc)] }

theorem C5_view_counting_witness :
    findDoc (viewCalls 1 3 c5Store).arts 1 =
      some ({ c5Doc with views := c5Doc.views + ((3 : Nat) : Int) }) ∧
    postView c5Store 2 = (c5Store, 404) := by
  have h := C5_view_counting c5Store 1
  have h2 := C5_view_counting c5Store 2
  exact ⟨((h.1 c5Doc rfl).2) 3, h2.2 rfl⟩

/-- C6: creating a category named "Tech" and then one named "tech" makes
the second `POST /api/categories` answer HTTP 409 ("Category already
exists") — names are unique case-insensitively — and the store still
holds only the original "Tech" category, unchanged. -/
theorem C6_case_insensitive_category_conflict :
    (createCategory { cats := [], arts := [], comments := [] } 1
        (some "Tech")).2 = 201 ∧
    (createCategory { cats := [], arts := [], comments := [] } 1
        (some "Tech")).1.cats =
      [(1, { categoryName := "Tech", slug := "tech", articleCount := 0 })] ∧
    createCategory
        (createCategory { cats := [], arts := [], comments := [] } 1
          (some "Tech")).1 2 (some "tech") =
      ((createCategory { cats := [], arts := [], comments := [] } 1
          (some "Tech")).1, 409) := by
  decide

/-- C7: evaluation of the delete cascade at a reachable failing state.
Create an article in category "Tech" while no such category document
exists (the create-time `$inc` matches nothing), then create the category
(`articleCount` starts at 0), then delete the article: the delete
handler's `$inc: { articleCount: -1 }` has no floor, so `articleCount`
becomes `-1`, contradicting the claim that it can never go below 0. -/
theorem C7_articleCount_goes_negative :
    (createArticle { cats := [], arts := [], comments := [] } 10 111
        { category := some "Tech", title := some "Hello World",
          description := some "aaaaaaaaaaaaaaaaaaaa", code := some "x",
          hasAvatar := true, hasImg := true }).2 = 201 ∧
    (createCategory
        (createArticle { cats := [], arts := [], comments := [] } 10 111
          { category := some "Tech", title := some "Hello World",
            description := some "aaaaaaaaaaaaaaaaaaaa", code := some "x",
            hasAvatar := true, hasImg := true }).1 1 (some "Tech")).2 =
      201 ∧
    (deleteArticle
        (createCategory
          (createArticle { cats := [], arts := [], comments := [] } 10 111
            { category := some "Tech", title := some "Hello World",
              description := some "aaaaaaaaaaaaaaaaaaaa", code := some "x",
              hasAvatar := true, hasImg := true }).1 1 (some "Tech")).1
        10).2 = 200 ∧
    findDoc
        (deleteArticle
          (createCategory
            (createArticle { cats := [], arts := [], comments := [] } 10 111
              { category := some "Tech", title := some "Hello World",
                description := some "aaaaaaaaaaaaaaaaaaaa", code := some "x",
                hasAvatar := true, hasImg := true }).1 1 (some "Tech")).1
          10).1.cats 1 =
      some { categoryName := "Tech", slug := "tech", articleCount := -1 } := by
  decide

/-- C10: each `POST /api/comments/:id/like` on an existing comment answers
200 and `$inc`s its `likes` by exactly 1 unconditionally — the comment
schema records no per-identity state (`CommentDoc` has no `likedBy`) and
the handler reads no identity, so `n` calls from any caller add exactly
`n`; an unresolved id yields 404 and leaves the store unchanged. -/
theorem C10_comment_like_counting (st : Store) (commentId : Nat) :
    (∀ c, findDoc st.comments commentId = some c →
      (postCommentLike st commentId).2 = 200 ∧
      ∀ n, findDoc (commentLikeCalls commentId n st).comments commentId =
        some ({ c with likes := c.likes + (n : Int) })) ∧
    (findDoc st.comments commentId = none →
      postCommentLike st commentId = (st, 404)) := by
  constructor
  · intro c hfind
    refine ⟨by simp [postCommentLike, hfind],
      fun n => commentLikeCalls_adds n st commentId c hfind⟩
  · intro hnone
    simp [postCommentLike, hnone]

def c10Doc : CommentDoc :=
  { articleId := 1, user := "u", text := "t", likes := 2 }

def c10Store : Store :=
  { cats := [], arts := [], comments := [(5, c10Doc)] }

theorem C10_comment_like_counting_witness :
    findDoc (commentLikeCalls 5 4 c10Store).comments 5 =
      some ({ c10Doc with likes := c10Doc.likes + ((4 : Nat) : Int) }) ∧
    postCommentLike c10Store 6 = (c10Store, 404) := by
  have h := C10_comment_like_counting c10Store 5
  have h2 := C10_comment_like_counting c10Store 6
  exact ⟨((h.1 c10Doc rfl).2) 4, h2.2 rfl⟩

theorem categoryMkSlug_idem (s : String) :
    categoryMkSlug (categoryMkSlug s) = categoryMkSlug s := by
  unfold categoryMkSlug
  exact congrArg String.mk (categoryMkSlugL_idem s.data)

/-- C3 counterexample: the article-title deriver
(`articleSchema.pre("save")`, src/index.js:255-265) appends
`` `-${Date.now()}` `` to the cleaned title, so re-applying the deriver —
even at the same clock value — changes the slug: it is not idempotent,
contrary to the claim, which asserts idempotence for both derivers. -/
theorem C3_article_slug_not_idempotent :
    articleMkSlug (articleMkSlug "Hello World" 5) 5 ≠
      articleMkSlug "Hello World" 5 := by
  decide

/-- C3 (amended): for every input the category-name slug is lowercase,
stays within `[a-z0-9-]`, has no leading or trailing hyphen, and the
category deriver is idempotent; the article-title slug is lowercase, stays
within `[a-z0-9-]`, never ends in a hyphen, and — when the title contains
an ASCII alphanumeric — does not begin with one.  The article deriver is
not idempotent, because it appends a fresh `-<timestamp>` suffix on every
application (see the counterexample). -/
theorem C3_slug_properties (s : String) (ts : Nat) :
    ((categoryMkSlug s).data.all isSlugChar = true ∧
      (categoryMkSlug s).data.map jsToLower = (categoryMkSlug s).data ∧
      (∀ c, (categoryMkSlug s).data.head? = some c → c ≠ '-') ∧
      (∀ c, (categoryMkSlug s).data.getLast? = some c → c ≠ '-') ∧
      categoryMkSlug (categoryMkSlug s) = categoryMkSlug s) ∧
    ((articleMkSlug s ts).data.all isSlugChar = true ∧
      (articleMkSlug s ts).data.map jsToLower = (articleMkSlug s ts).data ∧
      (∀ c, (articleMkSlug s ts).data.getLast? = some c → c ≠ '-') ∧
      (s.data.any isAsciiAlnum = true →
        ∀ c, (articleMkSlug s ts).data.head? = some c → c ≠ '-')) := by
  have hdc : (categoryMkSlug s).data = categoryMkSlugL s.data := rfl
  have hda : (articleMkSlug s ts).data = articleMkSlugL s.data ts := rfl
  refine ⟨⟨?_, ?_, ?_, ?_, categoryMkSlug_idem s⟩, ?_, ?_, ?_, ?_⟩
  · rw [hdc]; exact categoryMkSlugL_all s.data
  · rw [hdc]; exact categoryMkSlugL_map_lower s.data
  · rw [hdc]; exact categoryMkSlugL_head s.data
  · rw [hdc]; exact categoryMkSlugL_getLast s.data
  · rw [hda]; exact articleMkSlugL_all s.data ts
  · rw [hda]; exact articleMkSlugL_map_lower s.data ts
  · rw [hda]; exact articleMkSlugL_getLast s.data ts
  · intro hany; rw [hda]; exact articleMkSlugL_head hany ts

theorem C3_slug_properties_witness :
    (categoryMkSlug "Hello, World!").data.all isSlugChar = true ∧
    categoryMkSlug (categoryMkSlug "Hello, World!") =
      categoryMkSlug "Hello, World!" ∧
    (articleMkSlug "Hello, World!" 42).data.all isSlugChar = true ∧
    ('h' : Char) ≠ '-' := by
  have h := C3_slug_properties "Hello, World!" 42
  refine ⟨h.1.1, h.1.2.2.2.2, h.2.1, ?_⟩
  exact h.2.2.2.2 (by decide) 'h' (by decide)

/-- C4 counterexample: saving a category named `"!!!"` (three characters,
so it passes every name validator; its cleaned slug is empty) succeeds
with 201 and stores `slug = ""` — the `slug` field has no validators, so
no ValidationError is signalled, contrary to the claim. -/
theorem C4_empty_slug_stored :
    createCategory { cats := [], arts := [], comments := [] } 1
        (some "!!!") =
      ({ cats := [(1, { categoryName := "!!!", slug := "", articleCount := 0 })],
         arts := [], comments := [] }, 201) := by
  decide

/-- C4 (amended): an input whose slug is empty after stripping does NOT
signal a ValidationError.  A category name with no ASCII alphanumeric that
passes name validation is saved with status 201 and an empty slug; an
article title with no ASCII alphanumeric gets the slug `-<timestamp>`
(never empty, but starting with a hyphen), again with no error. -/
theorem C4_no_validation_error_on_empty_slug (st : Store) (freshId : Nat)
    (raw : String) (hne : jsTrim raw ≠ "")
    (hnoalnum : raw.data.all (fun c => !isAsciiAlnum c) = true)
    (hnodup : st.cats.any
      (fun p => ciEq p.2.categoryName (sanitizeInput raw)) = false)
    (hvalid : categoryNameValid (jsTrim (sanitizeInput raw)) = true)
    (title : String) (ts : Nat)
    (htitle : title.data.all (fun c => !isAsciiAlnum c) = true) :
    createCategory st freshId (some raw) =
      ({ st with cats := st.cats ++ [(freshId,
          { categoryName := jsTrim (sanitizeInput raw), slug := "",
            articleCount := 0 })] }, 201) ∧
    articleMkSlug title ts = ⟨'-' :: natDecimal ts⟩ ∧
    articleMkSlug title ts ≠ "" := by
  have hstored : (jsTrim (sanitizeInput raw)).data.all
      (fun c => !isAsciiAlnum c) = true :=
    jsTrimL_all (removeAngles_all (jsTrimL_all hnoalnum))
  have hslug : categoryMkSlug (jsTrim (sanitizeInput raw)) = "" := by
    have h0 : categoryMkSlugL (jsTrim (sanitizeInput raw)).data = [] :=
      categoryMkSlugL_eq_nil_of_no_alnum hstored
    unfold categoryMkSlug
    rw [h0]
  have htitle0 : categoryMkSlugL title.data = [] :=
    categoryMkSlugL_eq_nil_of_no_alnum htitle
  refine ⟨?_, ?_, ?_⟩
  · simp [createCategory, hne, hnodup, hvalid, hslug]
  · unfold articleMkSlug articleMkSlugL
    rw [htitle0]
    simp
  · intro hcontra
    have hd := congrArg String.data hcontra
    rw [show (articleMkSlug title ts).data =
      articleMkSlugL title.data ts from rfl] at hd
    unfold articleMkSlugL at hd
    rw [htitle0] at hd
    simp at hd

def c4CatDoc : CategoryDoc :=
  { categoryName := jsTrim (sanitizeInput "!!!"), slug := "",
    articleCount := 0 }

theorem C4_no_validation_error_on_empty_slug_witness :
    createCategory { cats := [], arts := [], comments := [] } 1
        (some "!!!") =
      ({ cats := [(1, c4CatDoc)], arts := [], comments := [] }, 201) ∧
    articleMkSlug "!!!!!" 9 = ⟨'-' :: natDecimal 9⟩ ∧
    articleMkSlug "!!!!!" 9 ≠ "" := by
  exact C4_no_validation_error_on_empty_slug
    { cats := [], arts := [], comments := [] } 1 "!!!" (by decide)
    (by decide) (by decide) (by decide) "!!!!!" 9 (by decide)

/-- C8: with `page=2&limit=10` the article list returns exactly items
11–20 of the filtered result set in descending order of the requested
sort field, and reports `totalPages = ceil(total / 10)`. -/
theorem C8_pagination (st : Store) (q : ListQuery) (hp : q.page = 2)
    (hl : q.limit = 10) :
    (getArticles st q).data = ((sortedArticles st q).take 20).drop 10 ∧
    (getArticles st q).total = (filteredArticles st q).length ∧
    (getArticles st q).totalPages =
      ((filteredArticles st q).length + 9) / 10 ∧
    (getArticles st q).data.Pairwise
      (fun a b => articleLe (chosenSortField q.sortBy) a b = true) := by
  have hdata : (getArticles st q).data =
      ((sortedArticles st q).drop 10).take 10 := by
    simp [getArticles, hp, hl]
  refine ⟨?_, rfl, ?_, ?_⟩
  · rw [hdata, List.take_drop]
  · have h2 : (filteredArticles st q).length + 10 - 1 =
        (filteredArticles st q).length + 9 := by omega
    simp [getArticles, hp, hl, ceilDiv, h2]
  · rw [hdata]
    have hsorted : (sortedArticles st q).Pairwise
        (fun a b => articleLe (chosenSortField q.sortBy) a b = true) :=
      List.sorted_mergeSort (articleLe_trans _) (articleLe_total _) _
    exact hsorted.sublist
      ((List.take_sublist _ _).trans (List.drop_sublist _ _))

def c8Article (i : Nat) : ArticleDoc :=
  { category := "Tech", title := "Hello World", description := "d",
    code := "x", slug := "s", views := (i : Int), likes := 0, likedBy := [],
    createdAt := i }

def c8Store : Store :=
  { cats := [], comments := [],
    arts := (List.range 12).map (fun i => (i, c8Article i)) }

def c8Query : ListQuery :=
  { category := none, search := none, page := 2, limit := 10,
    sortBy := "views" }

theorem C8_pagination_witness :
    (getArticles c8Store c8Query).data =
      ((sortedArticles c8Store c8Query).take 20).drop 10 ∧
    (getArticles c8Store c8Query).total =
      (filteredArticles c8Store c8Query).length ∧
    (getArticles c8Store c8Query).totalPages =
      ((filteredArticles c8Store c8Query).length + 9) / 10 ∧
    (getArticles c8Store c8Query).data.Pairwise
      (fun a b => articleLe (chosenSortField c8Query.sortBy) a b = true) :=
  C8_pagination c8Store c8Query rfl rfl

/-- C9 counterexample: the like route does not use a supplied `userId`
verbatim — it applies `sanitizeInput` first, so `" <bob> "` becomes
`"bob"`, contrary to the claim. -/
theorem C9_userId_not_verbatim :
    likeIdentity (some " <bob> ") "9.9.9.9" 0 ≠ " <bob> " := by
  decide

/-- C9 (amended): when a non-empty `userId` is supplied, the identity used
for `likedBy` membership is `sanitizeInput(userId)` — which is the userId
verbatim exactly when it has no surrounding whitespace and no `<` or `>`
characters; otherwise an anonymous identity is synthesized from the
request's network origin: `guest_<ip>_<Date.now()>` for like and
`guest_<ip>` for unlike / like-status. -/
theorem C9_identity_selection (u ip : String) (now : Nat) :
    (u ≠ "" → likeIdentity (some u) ip now = sanitizeInput u ∧
      unlikeIdentity (some u) ip = sanitizeInput u) ∧
    (noEdgeWs u = true → noAngles u = true → sanitizeInput u = u) ∧
    likeIdentity none ip now = "guest_" ++ ip ++ "_" ++ Nat.repr now ∧
    unlikeIdentity none ip = "guest_" ++ ip := by
  refine ⟨?_, ?_, rfl, rfl⟩
  · intro h
    constructor <;> simp [likeIdentity, unlikeIdentity, h]
  · exact sanitizeInput_eq_self_of_clean

theorem C9_identity_selection_witness :
    (likeIdentity (some "bob") "9.9.9.9" 5 = sanitizeInput "bob" ∧
      unlikeIdentity (some "bob") "9.9.9.9" = sanitizeInput "bob") ∧
    sanitizeInput "bob" = "bob" ∧
    likeIdentity none "9.9.9.9" 5 =
      "guest_" ++ "9.9.9.9" ++ "_" ++ Nat.repr 5 ∧
    unlikeIdentity none "9.9.9.9" = "guest_" ++ "9.9.9.9" := by
  have h := C9_identity_selection "bob" "9.9.9.9" 5
  exact ⟨h.1 (by decide), h.2.1 (by decide) (by decide), h.2.2.1, h.2.2.2⟩

end Fenrir
